import Mathlib

/-!
# Verification of `eachine_lcd5802d_extract_video.py`

A shallow embedding of the DVR-footage extraction tool
(`src/eachine_lcd5802d_extract_video.py`) together with theorems settling
the frozen specification claims.

Conventions of the embedding:

* Python `int` is `Int` (arbitrary precision in both); filename indices
  parsed from digit groups are `Nat` cast to `Int` where the dictionary
  key is formed.
* A Python value placed into a `subprocess.run` argument list is a
  `PyVal`: either a string or the 2-tuple `(str, int)` carried by the
  `VideoCodec` enum's `.value`.
* `subprocess.run(cmd, check=True)` spawns an external process only when
  every element of `cmd` is a string; otherwise it raises `TypeError`
  before any process is created.  A nonzero exit status raises
  `CalledProcessError`.  Exit statuses are supplied by an oracle
  (`TranscoderEnv`) indexed by the number of processes spawned so far.
* `with TemporaryDirectory() as tempdir:` is modelled by removing, when
  the block is left on any path, every file whose path lies under
  `tempdir`.
* The filesystem seen by `find_input_files` and by `__main__` is
  modelled explicitly (`DirModel`, `MainEnv`).
-/

set_option autoImplicit false

/-- A Python value that the script places into a `subprocess.run`
argument list: either a `str`, or the `(codec, crf)` tuple that is the
`.value` of a `VideoCodec` enum member. -/
inductive PyVal where
  | str (s : String)
  | tup (s : String) (n : Int)
  deriving DecidableEq, Repr

/-- `class VideoCodec(Enum)` with members `H264 = ('libx264', 22)` and
`H265 = ('libx265', 28)`. -/
inductive VideoCodec where
  | H264
  | H265
  deriving DecidableEq, Repr

/-- The enum member's `.value`: the tuple it was declared with. -/
def VideoCodec.value : VideoCodec → String × Int
  | .H264 => ("libx264", 22)
  | .H265 => ("libx265", 28)

/-- `VideoCodec.codec` property: `self.value[0]`. -/
def VideoCodec.codec (c : VideoCodec) : String := c.value.1

/-- `VideoCodec.default_crf` property: `self.value[1]`. -/
def VideoCodec.default_crf (c : VideoCodec) : Int := c.value.2

/-- `class AudioCodec(Enum)` with members `AAC = 'aac'`, `AC3 = 'ac3'`;
its `.value` is the plain string. -/
inductive AudioCodec where
  | AAC
  | AC3
  deriving DecidableEq, Repr

/-- The enum member's `.value` (a string). -/
def AudioCodec.value : AudioCodec → String
  | .AAC => "aac"
  | .AC3 => "ac3"

/-- Left-pad a string with zeros to a minimum width, as Python field
formatting does for the digit part of `{:04d}` / `{:03d}`. -/
def zpad (w : Nat) (s : String) : String :=
  if s.length < w then String.mk (List.replicate (w - s.length) '0') ++ s else s

/-- `dvr_filename(index)`: the Python f-string `f'PICT{index:04d}.AVI'`.
For a negative index Python pads the total width (sign included) to 4,
so the digit part is padded to 3. -/
def dvr_filename (index : Int) : String :=
  if index < 0 then "PICT-" ++ zpad 3 (toString index.natAbs) ++ ".AVI"
  else "PICT" ++ zpad 4 (toString index.toNat) ++ ".AVI"

/-- ASCII decimal digit, the characters matched by `\d` on the
filenames in scope. -/
def isDigitCh (c : Char) : Bool := '0' ≤ c && c ≤ '9'

/-- Numeric value of one decimal digit character. -/
def digitVal (c : Char) : Nat := c.toNat - '0'.toNat

/-- Value of a digit string, `int()` on a group of decimal digits. -/
def digitsToNat (cs : List Char) : Nat :=
  cs.foldl (fun a c => a * 10 + digitVal c) 0

/-- Case-insensitive equality of two character lists (ASCII case
folding, as `re.IGNORECASE` behaves on these patterns). -/
def ciEqList (a b : List Char) : Bool :=
  a.length = b.length && (a.zip b).all (fun p => p.1.toLower = p.2.toLower)

/-- `_filename_pat.fullmatch(filename)` for
`re.compile(r'PICT(?P<index>\d+).AVI', flags=re.IGNORECASE)`, returning
`int(match.groupdict()['index'])` on success.

A full match decomposes the name as: a 4-character case-insensitive
`PICT` prefix, then one or more digits (`\d+`, the captured index), then
exactly one arbitrary character other than a newline (the *unescaped*
`.` of the pattern), then a 3-character case-insensitive `AVI` suffix.
The lengths of the fixed parts make the decomposition unique: the digit
group is everything between position 4 and the last 4 characters. -/
def matchIndex (name : String) : Option Nat :=
  let cs := name.toList
  let n := cs.length
  if 9 ≤ n then
    let mid := (cs.drop 4).take (n - 8)
    if ciEqList (cs.take 4) ['P', 'I', 'C', 'T']
        && ciEqList (cs.drop (n - 3)) ['A', 'V', 'I']
        && cs.getD (n - 4) '\n' ≠ '\n'
        && mid.all isDigitCh then
      some (digitsToNat mid)
    else none
  else none

/-- One immediate entry of the `100DSCIM` directory: its filename and
whether `os.path.isfile` holds for it. -/
structure Entry where
  name : String
  is_file : Bool
  deriving DecidableEq, Repr

/-- The filesystem facts `find_input_files` inspects: existence and
directory-ness of `source_path`, of `source_path/DCIM`, and of
`source_path/DCIM/100DSCIM`, plus the immediate entries of the latter
in directory-listing order. -/
structure DirModel where
  source_exists : Bool
  source_is_dir : Bool
  dcim_exists : Bool
  dcim_is_dir : Bool
  input_exists : Bool
  input_is_dir : Bool
  listing : List Entry
  deriving DecidableEq, Repr

/-- The `ValueError`s raised by `find_input_files`, by message. -/
inductive ResolverError where
  | sourceNotFound
  | sourceNotDir
  | dcimNotFound
  | inputNotFound
  deriving DecidableEq, Repr

/-- Python `dict` insertion: an existing key is updated in place, a new
key is appended (dicts preserve insertion order). -/
def dictInsert (m : List (Int × String)) (k : Int) (v : String) : List (Int × String) :=
  if m.any (fun p => p.1 = k) then
    m.map (fun p => if p.1 = k then (k, v) else p)
  else m ++ [(k, v)]

/-- One step of the dict comprehension of `find_input_files`: a regular
file whose name fully matches the pattern maps its parsed index to
`os.path.join(input_path, filename)`; everything else is skipped. -/
def resolveStep (base : String) (m : List (Int × String)) (e : Entry) :
    List (Int × String) :=
  if e.is_file then
    match matchIndex e.name with
    | some i => dictInsert m (Int.ofNat i) (base ++ "/" ++ e.name)
    | none => m
  else m

/-- The dict comprehension of `find_input_files`: iterate the listing in
order, folding `resolveStep` into an initially empty dict. -/
def buildDict (base : String) (es : List Entry) : List (Int × String) :=
  es.foldl (resolveStep base) []

/-- `find_input_files(source_path)` over the filesystem model. -/
def find_input_files (source_path : String) (fs : DirModel) :
    Except ResolverError (List (Int × String)) :=
  if !fs.source_exists then .error .sourceNotFound
  else if !fs.source_is_dir then .error .sourceNotDir
  else if !fs.dcim_exists || !fs.dcim_is_dir then .error .dcimNotFound
  else if !fs.input_exists || !fs.input_is_dir then .error .inputNotFound
  else .ok (buildDict (source_path ++ "/DCIM/100DSCIM") fs.listing)

/-- `str.split(sep, maxsplit)` on a character separator: `maxsplit`
splits from the left, the remainder is kept whole.  `acc` is the
current piece, reversed. -/
def splitMaxAux (sep : Char) : Nat → List Char → List Char → List (List Char)
  | _, acc, [] => [acc.reverse]
  | maxsplit, acc, c :: rest =>
    if c = sep && maxsplit > 0 then
      acc.reverse :: splitMaxAux sep (maxsplit - 1) [] rest
    else
      splitMaxAux sep maxsplit (c :: acc) rest

/-- `s.split(':', 2)` as used by `parse_range`. -/
def pySplitColon2 (cs : List Char) : List (List Char) :=
  splitMaxAux ':' 2 [] cs

/-- The whitespace characters stripped by `str.strip()` (ASCII). -/
def isSpaceCh (c : Char) : Bool :=
  c = ' ' || c = '\t' || c = '\n' || c = '\r' || c = '\x0b' || c = '\x0c'

/-- `str.strip()`. -/
def pyStrip (cs : List Char) : List Char :=
  ((cs.dropWhile isSpaceCh).reverse.dropWhile isSpaceCh).reverse

/-- Digit tail of a Python integer literal accepted by `int()`: after a
first digit, each further character is a digit or a single underscore
followed by a digit. -/
def pyIntDigits : List Char → Nat → Option Nat
  | [], acc => some acc
  | '_' :: c :: cs, acc =>
    if isDigitCh c then pyIntDigits cs (acc * 10 + digitVal c) else none
  | ['_'], _ => none
  | c :: cs, acc =>
    if isDigitCh c then pyIntDigits cs (acc * 10 + digitVal c) else none

/-- Unsigned part: must begin with a digit. -/
def pyIntNat : List Char → Option Nat
  | c :: cs => if isDigitCh c then pyIntDigits cs (digitVal c) else none
  | [] => none

/-- Python `int(s)` on an already-stripped string: optional sign, then
digits with optional single underscores between digits; anything else
raises `ValueError`. -/
def pyParseInt (cs : List Char) : Option Int :=
  match cs with
  | '+' :: rest => (pyIntNat rest).map Int.ofNat
  | '-' :: rest => (pyIntNat rest).map (fun n => -(Int.ofNat n))
  | rest => (pyIntNat rest).map Int.ofNat

/-- The `ValueError`s raised by `parse_range`, by message:
`"invalid range"`, `"invalid start index"`, `"invalid end index"`. -/
inductive RangeError where
  | invalidRange
  | invalidStart
  | invalidEnd
  deriving DecidableEq, Repr

/-- One side of the range after `strip()`: empty becomes `None`,
otherwise `int()` either succeeds or raises. -/
def parseSide (cs : List Char) : Except Unit (Option Int) :=
  let t := pyStrip cs
  if t.isEmpty then .ok none
  else
    match pyParseInt t with
    | some n => .ok (some n)
    | none => .error ()

/-- `parse_range(s)` on the character list of `s`. -/
def parse_rangeL (cs : List Char) : Except RangeError (Option Int × Option Int) :=
  match pySplitColon2 cs with
  | [a, b] =>
    match parseSide a with
    | .error _ => .error .invalidStart
    | .ok sv =>
      match parseSide b with
      | .error _ => .error .invalidEnd
      | .ok ev => .ok (sv, ev)
  | _ => .error .invalidRange

/-- `parse_range(s)`. -/
def parse_range (s : String) : Except RangeError (Option Int × Option Int) :=
  parse_rangeL s.toList

/-- Oracle for the external transcoder: exit status of the k-th process
spawned during a run (0 = success). -/
structure TranscoderEnv where
  exit : Nat → Int

/-- State threaded through the pipeline body: external processes spawned
so far (in order, as fully stringified argument vectors) and the files
created so far. -/
structure PipeState where
  spawned : List (List String)
  files : List String
  deriving DecidableEq, Repr

/-- Exceptions the pipeline body can raise. -/
inductive PyExc where
  | typeError (cmd : List PyVal)
  | calledProcessError (argv : List String)
  deriving DecidableEq, Repr

/-- The argument vector actually handed to the OS: defined only when
every element of the command list is a `str`. -/
def asArgv (cmd : List PyVal) : Option (List String) :=
  cmd.mapM (fun v => match v with | .str s => some s | .tup _ _ => none)

/-- `subprocess.run(cmd, check=True)`: raises `TypeError` without
spawning when some element is not a string; otherwise spawns the
process (which creates `outFile` on success) and raises
`CalledProcessError` on a nonzero exit status. -/
def runProc (env : TranscoderEnv) (st : PipeState) (cmd : List PyVal)
    (outFile : String) : PipeState × Option PyExc :=
  match asArgv cmd with
  | none => (st, some (.typeError cmd))
  | some argv =>
    if env.exit st.spawned.length = 0 then
      ({ spawned := st.spawned ++ [argv], files := st.files ++ [outFile] }, none)
    else
      ({ spawned := st.spawned ++ [argv], files := st.files }, some (.calledProcessError argv))

/-- The per-segment normalization command (`pad_cmd`, lines 188-191). -/
def pad_cmd (ffmpeg_path input_path : String) (audio_codec : AudioCodec)
    (segment_path : String) : List PyVal :=
  [.str ffmpeg_path, .str "-y", .str "-i", .str input_path, .str "-af", .str "apad",
   .str "-c:v", .str "copy", .str "-c:a", .str audio_codec.value,
   .str "-shortest", .str "-avoid_negative_ts", .str "make_zero",
   .str "-fflags", .str "+genpts", .str segment_path]

/-- The concatenation command (`concat_cmd`, lines 201-203). -/
def concat_cmd (ffmpeg_path manifest_path temp_path : String) : List PyVal :=
  [.str ffmpeg_path, .str "-y", .str "-f", .str "concat", .str "-safe", .str "0",
   .str "-i", .str manifest_path, .str "-c", .str "copy", .str temp_path]

/-- `extra_encode_args` set when `compatibility_mode` holds (line 209). -/
def compatExtraArgs : List PyVal :=
  [.str "-profile:v", .str "baseline", .str "-level", .str "3.0",
   .str "-pix_fmt", .str "yuv420p"]

/-- Lines 177-178: `if compression is None: compression =
video_codec.default_crf`.  Runs before the compatibility override. -/
def resolveCompression (compression : Option Int) (video_codec : VideoCodec) : Int :=
  compression.getD video_codec.default_crf

/-- The final-encode command (`encode_cmd`, lines 206-220), including
the compatibility override of lines 207-209.  Note line 215 places
`video_codec.value` — the `(codec, crf)` *tuple* — after `-c:v`, not
the `video_codec.codec` string. -/
def finalEncodeCmd (ffmpeg_path temp_path : String) (video_codec : VideoCodec)
    (compatibility_mode : Bool) (compression : Int) (preset output_path : String) :
    List PyVal :=
  let vc := if compatibility_mode then VideoCodec.H264 else video_codec
  let extra := if compatibility_mode then compatExtraArgs else []
  [.str ffmpeg_path, .str "-y", .str "-i", .str temp_path,
   .str "-c:a", .str "copy",
   .str "-c:v", .tup vc.value.1 vc.value.2]
  ++ extra
  ++ [.str "-crf", .str (toString compression),
      .str "-preset", .str preset, .str output_path]

/-- The normalization loop (lines 183-192): for each input, in order,
append the segment path and run `pad_cmd`; the first failure aborts.
Returns the state, the collected segment paths, and the exception if
one was raised. -/
def runSegments (env : TranscoderEnv) (ffmpeg_path : String) (audio_codec : AudioCodec)
    (tempdir : String) : Nat → List String → PipeState →
    PipeState × List String × Option PyExc
  | _, [], st => (st, [], none)
  | idx, input_path :: rest, st =>
    let segment_path := tempdir ++ "/segment" ++ zpad 3 (toString idx) ++ ".avi"
    match runProc env st (pad_cmd ffmpeg_path input_path audio_codec segment_path)
        segment_path with
    | (st1, none) =>
      let r := runSegments env ffmpeg_path audio_codec tempdir (idx + 1) rest st1
      (r.1, segment_path :: r.2.1, r.2.2)
    | (st1, some e) => (st1, [segment_path], some e)

/-- The body of the `with TemporaryDirectory()` block of
`join_and_compress_videos` (lines 183-221): normalize each segment,
write the manifest, concatenate, then final-encode. -/
def runBody (env : TranscoderEnv) (ffmpeg_path : String) (input_paths : List String)
    (output_path : String) (compression : Option Int) (preset : String)
    (video_codec : VideoCodec) (audio_codec : AudioCodec)
    (compatibility_mode : Bool) (tempdir : String) : PipeState × Option PyExc :=
  let compression := resolveCompression compression video_codec
  let st0 : PipeState := { spawned := [], files := [] }
  let r1 := runSegments env ffmpeg_path audio_codec tempdir 0 input_paths st0
  match r1.2.2 with
  | some e => (r1.1, some e)
  | none =>
    let manifest_path := tempdir ++ "/concat.txt"
    let st1 : PipeState := { r1.1 with files := r1.1.files ++ [manifest_path] }
    let temp_path := tempdir ++ "/concat.avi"
    match runProc env st1 (concat_cmd ffmpeg_path manifest_path temp_path) temp_path with
    | (st2, some e) => (st2, some e)
    | (st2, none) =>
      runProc env st2
        (finalEncodeCmd ffmpeg_path temp_path video_codec compatibility_mode
          compression preset output_path)
        output_path

/-- Observable outcome of one call of `join_and_compress_videos`. -/
structure RunResult where
  spawned : List (List String)
  error : Option PyExc
  files : List String
  deriving DecidableEq, Repr

/-- Structural string-prefix test (character by character). -/
def listPrefixOf : List Char → List Char → Bool
  | [], _ => true
  | _ :: _, [] => false
  | a :: as, b :: bs => a = b && listPrefixOf as bs

/-- Whether `p` is a prefix of `s`. -/
def strPrefixOf (p s : String) : Bool := listPrefixOf p.toList s.toList

/-- Leaving the `with TemporaryDirectory()` block, on any path:
everything under `tempdir` is deleted. -/
def finishRun (st : PipeState) (e : Option PyExc) (tempdir : String) : RunResult :=
  { spawned := st.spawned
    error := e
    files := st.files.filter (fun p => !(strPrefixOf (tempdir ++ "/") p)) }

/-- `join_and_compress_videos` (lines 165-221). -/
def join_and_compress_videos (env : TranscoderEnv) (ffmpeg_path : String)
    (input_paths : List String) (output_path : String) (compression : Option Int)
    (preset : String) (video_codec : VideoCodec) (audio_codec : AudioCodec)
    (compatibility_mode : Bool) (tempdir : String) : RunResult :=
  let r := runBody env ffmpeg_path input_paths output_path compression preset
    video_codec audio_codec compatibility_mode tempdir
  finishRun r.1 r.2 tempdir

/-- The environment `__main__` observes: whether `args.output` already
exists, the filesystem under `args.source_path`, and the raw
`args.input_range` string. -/
structure MainEnv where
  output_exists : Bool
  dir : DirModel
  input_range : String
  deriving DecidableEq, Repr

/-- The early-exit reasons of `__main__`; each prints its message and
then calls bare `sys.exit()`. -/
inductive MainExit where
  | outputExists
  | locateFailed (e : ResolverError)
  | noRecordings
  | invalidRange
  | missingFiles (names : List String)
  deriving DecidableEq, Repr

/-- Where control ends up in `__main__`: an early `sys.exit()`, or the
pipeline call site at line 310 with the resolved bounds and the ordered
selected input paths. -/
inductive MainOutcome where
  | exited (r : MainExit)
  | proceed (startIdx stopIdx : Int) (input_files : List String)
  deriving DecidableEq, Repr

/-- `min(video_files.keys())` (only used on a nonempty dict). -/
def minKey : List (Int × String) → Int
  | [] => 0
  | p :: rest => rest.foldl (fun m q => min m q.1) p.1

/-- `max(video_files.keys())` (only used on a nonempty dict). -/
def maxKey : List (Int × String) → Int
  | [] => 0
  | p :: rest => rest.foldl (fun m q => max m q.1) p.1

/-- Python `range(start, stop + 1)` as a list of `Int`. -/
def intRange (start stop : Int) : List Int :=
  (List.range (stop + 1 - start).toNat).map (fun (k : Nat) => start + (k : Int))

/-- `idx in video_files.keys()`. -/
def hasKey (m : List (Int × String)) (k : Int) : Bool :=
  m.any (fun p => p.1 = k)

/-- `video_files[idx]`.  Only evaluated by `__main__` after the
missing-files check guarantees the key is present; the `""` default is
the unreachable `KeyError` branch. -/
def dictGet (m : List (Int × String)) (k : Int) : String :=
  match m.find? (fun p => p.1 = k) with
  | some p => p.2
  | none => ""

/-- Lines 297-299: the indices of the inclusive resolved range that are
absent from the recording set, in range order. -/
def missingOf (video_files : List (Int × String)) (startIdx stopIdx : Int) : List Int :=
  (intRange startIdx stopIdx).filter (fun i => !hasKey video_files i)

/-- Lines 272-309 of `__main__`: output-existence check, input
resolution, emptiness check, range parsing, bound resolution against
min/max, missing-file check, then the selection handed to the pipeline
call. -/
def main_select (env : MainEnv) (source_path : String) : MainOutcome :=
  if env.output_exists then .exited .outputExists
  else
    match find_input_files source_path env.dir with
    | .error e => .exited (.locateFailed e)
    | .ok video_files =>
      if video_files.length = 0 then .exited .noRecordings
      else
        match parse_range env.input_range with
        | .error _ => .exited .invalidRange
        | .ok (s, e) =>
          let startIdx := s.getD (minKey video_files)
          let stopIdx := e.getD (maxKey video_files)
          let missing := missingOf video_files startIdx stopIdx
          if missing.length > 0 then
            .exited (.missingFiles (missing.map dvr_filename))
          else
            .proceed startIdx stopIdx
              ((intRange startIdx stopIdx).map (dictGet video_files))

/-- Whether control reaches line 310, the only place in the script that
can start any transcoding work. -/
def reachesPipelineCall : MainOutcome → Bool
  | .exited _ => false
  | .proceed _ _ _ => true

/-- Process exit status of an early exit: every early-exit branch of
`__main__` calls `sys.exit()` with no argument, which exits with
status 0. -/
def exitStatusOf (_ : MainExit) : Nat := 0

/-- One source line of the argument-parser section (lines 40-109),
abstracted to what the Python tokenizer needs here: whether the line is
a comment, and otherwise its parenthesis counts (no string literal in
an active line of this section contains a parenthesis or a hash). -/
inductive SrcLine where
  | comment
  | active (opens closes : Nat)
  deriving DecidableEq, Repr

/-- Lines 40-109 of the source.  Active lines: 40 `cli =
ArgumentParser(`, 42 `)`, 44/49/54/59 `cli.add_argument(`, 48/53/58/65
`)`, and 109 a bare `)`; all other bracket-free active lines are
`(0, 0)`; lines 66-108 start with `#`. -/
def cliSectionLines : List SrcLine :=
  [.active 1 0, .active 0 0, .active 0 1,              -- 40-42
   .active 0 0,                                        -- 43
   .active 1 0, .active 0 0, .active 0 0, .active 0 0, -- 44-47
   .active 0 1,                                        -- 48
   .active 1 0, .active 0 0, .active 0 0, .active 0 0, -- 49-52
   .active 0 1,                                        -- 53
   .active 1 0, .active 0 0, .active 0 0, .active 0 0, -- 54-57
   .active 0 1,                                        -- 58
   .active 1 0, .active 0 0, .active 0 0, .active 0 0, .active 0 0, .active 0 0, -- 59-64
   .active 0 1,                                        -- 65
   .comment, .comment, .comment, .comment, .comment, .comment, .comment, .comment, -- 66-73
   .comment, .comment, .comment, .comment, .comment, .comment, .comment, .comment, -- 74-81
   .comment, .comment, .comment, .comment, .comment, .comment, .comment, .comment, -- 82-89
   .comment, .comment, .comment, .comment, .comment, .comment, .comment, .comment, -- 90-97
   .comment, .comment, .comment, .comment, .comment, .comment, .comment, .comment, -- 98-105
   .comment, .comment, .comment,                       -- 106-108
   .active 0 1]                                        -- 109

/-- Scan lines with a running open-bracket balance, ignoring comment
lines; a closing parenthesis with no matching open is the tokenizer
error `SyntaxError: unmatched ')'`, reported as `false`. -/
def checkParens : Nat → List SrcLine → Bool
  | _, [] => true
  | b, .comment :: ls => checkParens b ls
  | b, .active o c :: ls =>
    if c ≤ b + o then checkParens (b + o - c) ls else false

/-- The names bound at module level by the script as it stands
(assignments, class statements, active `def` statements). -/
def moduleLevelNames : List String :=
  ["FFMPEG_PATH", "COMPRESSION_PRESETS", "VideoCodec", "AudioCodec", "cli",
   "dvr_filename", "_filename_pat", "find_input_files", "parse_range",
   "join_and_compress_videos"]

/-- The function `__main__` calls at line 310; its `def` (lines
224-265) is entirely commented out. -/
def mainPipelineCallee : String := "join_and_compress_avi"

/-- The `dest` names of the `add_argument` calls that are active
(lines 44-65) plus the three positionals. -/
def activeArgDests : List String :=
  ["source_path", "input_range", "output", "ffmpeg_path"]

/-- The parsed-argument attributes read at lines 312-316 whose
`add_argument` definitions (lines 66-108) are commented out. -/
def mainOrphanArgReads : List String :=
  ["compression", "preset", "video_codec", "audio_codec", "compatibility_mode"]

/-- The element of a command list that immediately follows the first
occurrence of the given string flag (as `-crf 28` carries the quality
after the `-crf` flag). -/
def argAfter (flag : String) : List PyVal → Option PyVal
  | [] => none
  | .str s :: rest => if s = flag then rest.head? else argAfter flag rest
  | .tup _ _ :: rest => argAfter flag rest

/-! ## Helper lemmas -/

theorem splitMaxAux_length (sep : Char) (cs : List Char) : ∀ (m : Nat) (acc : List Char),
    (splitMaxAux sep m acc cs).length = min (cs.count sep) m + 1 := by
  induction cs with
  | nil => intro m acc; simp [splitMaxAux]
  | cons c rest ih =>
    intro m acc
    by_cases hc : c = sep
    · subst hc
      by_cases hm : 0 < m
      · simp [splitMaxAux, hm, ih, List.count_cons]
        omega
      · have hm0 : m = 0 := by omega
        subst hm0
        simp [splitMaxAux, ih, List.count_cons]
    · simp [splitMaxAux, hc, ih, List.count_cons]

theorem splitMaxAux_no_sep (sep : Char) (cs : List Char) : ∀ (m : Nat) (acc : List Char),
    sep ∉ cs → splitMaxAux sep m acc cs = [acc.reverse ++ cs] := by
  induction cs with
  | nil => intro m acc _; simp [splitMaxAux]
  | cons c rest ih =>
    intro m acc h
    have hc : ¬(c = sep) := fun hcc => h (hcc ▸ List.mem_cons_self c rest)
    have hb : (c = sep && decide (m > 0)) = false := by simp [hc]
    simp only [splitMaxAux, hb, Bool.false_eq_true, if_false]
    rw [ih m (c :: acc) (fun hm => h (List.mem_cons_of_mem c hm))]
    simp

theorem splitMaxAux_sep_split (sep : Char) (a : List Char) :
    ∀ (b acc : List Char) (m : Nat), 0 < m → sep ∉ a →
    splitMaxAux sep m acc (a ++ sep :: b) =
      (acc.reverse ++ a) :: splitMaxAux sep (m - 1) [] b := by
  induction a with
  | nil =>
    intro b acc m hm _
    simp [splitMaxAux, hm]
  | cons c a2 ih =>
    intro b acc m hm h
    have hc : ¬(c = sep) := fun hcc => h (hcc ▸ List.mem_cons_self c a2)
    have hb : (c = sep && decide (m > 0)) = false := by simp [hc]
    simp only [List.cons_append, splitMaxAux, hb, Bool.false_eq_true, if_false,
      List.append_eq]
    rw [ih b (c :: acc) m hm (fun hm2 => h (List.mem_cons_of_mem c hm2))]
    simp

theorem pySplitColon2_pair (a b : List Char) (ha : ':' ∉ a) (hb : ':' ∉ b) :
    pySplitColon2 (a ++ ':' :: b) = [a, b] := by
  unfold pySplitColon2
  rw [splitMaxAux_sep_split ':' a b [] 2 (by norm_num) ha]
  rw [splitMaxAux_no_sep ':' b 1 [] hb]
  simp

theorem hasKey_dictInsert (m : List (Int × String)) (k : Int) (v : String) (j : Int) :
    hasKey (dictInsert m k v) j = true ↔ hasKey m j = true ∨ j = k := by
  unfold hasKey dictInsert
  have hfst : ∀ p : Int × String, ((if p.1 = k then (k, v) else p).1) = p.1 := by
    intro p
    by_cases hpk : p.1 = k
    · simp [hpk]
    · simp [hpk]
  by_cases hm : m.any (fun p => p.1 = k)
  · rw [if_pos hm]
    simp only [List.any_map, List.any_eq_true, Function.comp, decide_eq_true_eq] at hm ⊢
    constructor
    · rintro ⟨p, hp, hfp⟩
      rw [hfst p] at hfp
      exact Or.inl ⟨p, hp, hfp⟩
    · rintro (⟨p, hp, hpj⟩ | rfl)
      · exact ⟨p, hp, by rw [hfst p]; exact hpj⟩
      · obtain ⟨q, hq, hqk⟩ := hm
        exact ⟨q, hq, by rw [hfst q]; exact hqk⟩
  · rw [if_neg hm]
    simp only [List.any_append, Bool.or_eq_true, List.any_eq_true, decide_eq_true_eq]
    constructor
    · rintro (h | ⟨p, hp, hpj⟩)
      · exact Or.inl h
      · simp only [List.mem_singleton] at hp
        subst hp
        exact Or.inr hpj.symm
    · rintro (h | rfl)
      · exact Or.inl h
      · exact Or.inr ⟨_, List.mem_singleton_self _, rfl⟩

theorem hasKey_resolveStep (base : String) (m : List (Int × String)) (e : Entry) (k : Int) :
    hasKey (resolveStep base m e) k = true ↔
      hasKey m k = true ∨
        (e.is_file = true ∧ ∃ i, matchIndex e.name = some i ∧ k = Int.ofNat i) := by
  unfold resolveStep
  by_cases hf : e.is_file
  · rw [if_pos hf]
    cases hmi : matchIndex e.name with
    | none => simp [hf, hmi]
    | some i =>
      rw [hasKey_dictInsert]
      simp [hf, hmi]
  · have hf2 : e.is_file = false := by simpa using hf
    simp [hf2]

theorem hasKey_buildDict_aux (base : String) (es : List Entry) :
    ∀ (m : List (Int × String)) (k : Int),
    hasKey (es.foldl (resolveStep base) m) k = true ↔
      hasKey m k = true ∨
        ∃ e ∈ es, e.is_file = true ∧ ∃ i, matchIndex e.name = some i ∧ k = Int.ofNat i := by
  induction es with
  | nil => intro m k; simp
  | cons e es ih =>
    intro m k
    rw [List.foldl_cons, ih, hasKey_resolveStep]
    simp only [List.mem_cons]
    constructor
    · rintro ((h | h) | ⟨f, hf, hp⟩)
      · exact Or.inl h
      · exact Or.inr ⟨e, Or.inl rfl, h⟩
      · exact Or.inr ⟨f, Or.inr hf, hp⟩
    · rintro (h | ⟨f, (rfl | hf), hp⟩)
      · exact Or.inl (Or.inl h)
      · exact Or.inl (Or.inr hp)
      · exact Or.inr ⟨f, hf, hp⟩

theorem hasKey_buildDict (base : String) (es : List Entry) (k : Int) :
    hasKey (buildDict base es) k = true ↔
      ∃ e ∈ es, e.is_file = true ∧ ∃ i, matchIndex e.name = some i ∧ k = Int.ofNat i := by
  unfold buildDict
  rw [hasKey_buildDict_aux]
  simp [hasKey]

theorem pairwise_lt_intRange (a b : Int) : List.Pairwise (· < ·) (intRange a b) := by
  unfold intRange
  exact (List.pairwise_lt_range _).map _ (fun x y h => by omega)

theorem mem_intRange (a b i : Int) : i ∈ intRange a b ↔ a ≤ i ∧ i ≤ b := by
  simp only [intRange, List.mem_map, List.mem_range]
  constructor
  · rintro ⟨k, hk, rfl⟩
    omega
  · intro h
    exact ⟨(i - a).toNat, by omega, by omega⟩

/-! ## Claim theorems -/

/-- Claim C1 (code_bug evidence).  Evaluating `join_and_compress_videos`
on three inputs with an always-succeeding transcoder: the run spawns the
three normalization processes in selection order and then the one
concatenation process — four external invocations, not N + 2 = 5 — and
then `subprocess.run` raises `TypeError` on the final-encode command
because its `-c:v` element is the enum tuple `('libx265', 28)` (line 215
uses `video_codec.value` instead of `video_codec.codec`), so the final
encode never invokes the transcoder. -/
theorem c1_transcoder_trace :
    (join_and_compress_videos ⟨fun _ => 0⟩ "ffmpeg" ["in0.avi", "in1.avi", "in2.avi"]
        "out.mp4" none "faster" VideoCodec.H265 AudioCodec.AAC false "tmp").spawned =
      [["ffmpeg", "-y", "-i", "in0.avi", "-af", "apad", "-c:v", "copy", "-c:a", "aac",
        "-shortest", "-avoid_negative_ts", "make_zero", "-fflags", "+genpts",
        "tmp/segment000.avi"],
       ["ffmpeg", "-y", "-i", "in1.avi", "-af", "apad", "-c:v", "copy", "-c:a", "aac",
        "-shortest", "-avoid_negative_ts", "make_zero", "-fflags", "+genpts",
        "tmp/segment001.avi"],
       ["ffmpeg", "-y", "-i", "in2.avi", "-af", "apad", "-c:v", "copy", "-c:a", "aac",
        "-shortest", "-avoid_negative_ts", "make_zero", "-fflags", "+genpts",
        "tmp/segment002.avi"],
       ["ffmpeg", "-y", "-f", "concat", "-safe", "0", "-i", "tmp/concat.txt", "-c",
        "copy", "tmp/concat.avi"]]
    ∧ (join_and_compress_videos ⟨fun _ => 0⟩ "ffmpeg" ["in0.avi", "in1.avi", "in2.avi"]
        "out.mp4" none "faster" VideoCodec.H265 AudioCodec.AAC false "tmp").error =
      some (PyExc.typeError
        [.str "ffmpeg", .str "-y", .str "-i", .str "tmp/concat.avi",
         .str "-c:a", .str "copy", .str "-c:v", .tup "libx265" 28,
         .str "-crf", .str "28", .str "-preset", .str "faster", .str "out.mp4"]) :=
  ⟨rfl, rfl⟩

/-- Claim C2.  On every exit path of `join_and_compress_videos` —
success or a failure raised at any stage — no file under the workspace
temporary directory survives the run; and (second and third conjuncts)
this is not vacuous: just before the `with` block is left, the
normalized segment, the concatenation manifest and the concatenated
intermediate do exist, and after it they are gone. -/
theorem c2_workspace_cleanup :
    (∀ (env : TranscoderEnv) (ffmpeg_path : String) (input_paths : List String)
      (output_path : String) (compression : Option Int) (preset : String)
      (video_codec : VideoCodec) (audio_codec : AudioCodec)
      (compatibility_mode : Bool) (tempdir : String),
      ((join_and_compress_videos env ffmpeg_path input_paths output_path compression
          preset video_codec audio_codec compatibility_mode tempdir).files.all
        (fun p => !(strPrefixOf (tempdir ++ "/") p))) = true)
    ∧ (runBody ⟨fun _ => 0⟩ "ffmpeg" ["in0.avi"] "out.mp4" none "faster" VideoCodec.H265
        AudioCodec.AAC false "tmp").1.files =
      ["tmp/segment000.avi", "tmp/concat.txt", "tmp/concat.avi"]
    ∧ (join_and_compress_videos ⟨fun _ => 0⟩ "ffmpeg" ["in0.avi"] "out.mp4" none "faster"
        VideoCodec.H265 AudioCodec.AAC false "tmp").files = [] := by
  refine ⟨?_, rfl, rfl⟩
  intro env f i o c p vc ac cm td
  simp only [join_and_compress_videos, finishRun, List.all_eq_true]
  intro x hx
  exact (List.mem_filter.mp hx).2

/-- Claim C3 (code_bug evidence).  The final-encode command selects the
video encoder by placing `video_codec.value` — the whole enum tuple —
after `-c:v`, not the identifier string `VideoCodec.codec` (`'libx264'`
or `'libx265'`); with the compatibility flag the codec is indeed forced
to H.264 with baseline profile, level 3.0 and `yuv420p`, but the `-c:v`
element is still the tuple.  Consequently the command cannot be turned
into an argument vector and the run raises `TypeError`. -/
theorem c3_codec_argument_tuple :
    VideoCodec.codec VideoCodec.H264 = "libx264"
    ∧ VideoCodec.codec VideoCodec.H265 = "libx265"
    ∧ finalEncodeCmd "ffmpeg" "tmp/concat.avi" VideoCodec.H265 false 28 "faster" "out.mp4" =
        [.str "ffmpeg", .str "-y", .str "-i", .str "tmp/concat.avi", .str "-c:a",
         .str "copy", .str "-c:v", .tup "libx265" 28, .str "-crf", .str "28",
         .str "-preset", .str "faster", .str "out.mp4"]
    ∧ asArgv (finalEncodeCmd "ffmpeg" "tmp/concat.avi" VideoCodec.H265 false 28 "faster"
        "out.mp4") = none
    ∧ finalEncodeCmd "ffmpeg" "tmp/concat.avi" VideoCodec.H265 true 28 "faster" "out.mp4" =
        [.str "ffmpeg", .str "-y", .str "-i", .str "tmp/concat.avi", .str "-c:a",
         .str "copy", .str "-c:v", .tup "libx264" 22, .str "-profile:v", .str "baseline",
         .str "-level", .str "3.0", .str "-pix_fmt", .str "yuv420p", .str "-crf",
         .str "28", .str "-preset", .str "faster", .str "out.mp4"]
    ∧ (join_and_compress_videos ⟨fun _ => 0⟩ "ffmpeg" ["in0.avi"] "out.mp4" none "faster"
        VideoCodec.H265 AudioCodec.AAC true "tmp").error =
      some (PyExc.typeError (finalEncodeCmd "ffmpeg" "tmp/concat.avi" VideoCodec.H265 true
        28 "faster" "out.mp4")) :=
  ⟨rfl, rfl, rfl, rfl, rfl, rfl⟩

/-- Claim C9.  The entry point is dead code three ways: the
argument-parser section (lines 40-109) contains a closing parenthesis
with no matching open one — a tokenizer-level `SyntaxError`, so the
module does not load; the function called at line 310 is not among the
names the module defines; and every optional-argument attribute read at
lines 312-316 has no active `add_argument` definition. -/
theorem c9_entry_point_defects :
    checkParens 0 cliSectionLines = false
    ∧ moduleLevelNames.contains mainPipelineCallee = false
    ∧ mainOrphanArgReads.all (fun d => !(activeArgDests.contains d)) = true :=
  ⟨rfl, rfl, rfl⟩

/-- Claim C8.  When the output path already exists, `__main__` prints
the message and exits immediately: control never reaches the pipeline
call site (so zero transcoder invocations and no write to any file),
and the bare `sys.exit()` gives exit status 0. -/
theorem c8_existing_output_short_circuit (env : MainEnv) (source_path : String)
    (h : env.output_exists = true) :
    main_select env source_path = .exited .outputExists
    ∧ reachesPipelineCall (main_select env source_path) = false
    ∧ exitStatusOf .outputExists = 0 := by
  refine ⟨?_, ?_, rfl⟩ <;> simp [main_select, h, reachesPipelineCall]

/-- Witness for C8 at a concrete environment. -/
theorem c8_existing_output_short_circuit_witness :
    main_select ⟨true, ⟨true, true, true, true, true, true, []⟩, "1:2"⟩ "src" =
      .exited .outputExists :=
  (c8_existing_output_short_circuit ⟨true, ⟨true, true, true, true, true, true, []⟩,
    "1:2"⟩ "src" rfl).1

/-- Claim C10.  When the quality level is unspecified, the `-crf` value
in the final-encode command is `video_codec.default_crf` of the codec
the caller selected (lines 177-178 run before the compatibility
override of lines 207-208); in particular with compatibility mode and
H.265 selected, `-crf` is `28` while the `-c:v` element carries H.264,
whose own default is 22. -/
theorem c10_crf_resolution_order :
    (∀ (vc : VideoCodec) (compat : Bool),
      argAfter "-crf"
        (finalEncodeCmd "ffmpeg" "tmp/concat.avi" vc compat (resolveCompression none vc)
          "faster" "out.mp4") = some (.str (toString vc.default_crf)))
    ∧ argAfter "-crf"
        (finalEncodeCmd "ffmpeg" "tmp/concat.avi" VideoCodec.H265 true
          (resolveCompression none VideoCodec.H265) "faster" "out.mp4") =
        some (.str "28")
    ∧ argAfter "-c:v"
        (finalEncodeCmd "ffmpeg" "tmp/concat.avi" VideoCodec.H265 true
          (resolveCompression none VideoCodec.H265) "faster" "out.mp4") =
        some (.tup "libx264" 22)
    ∧ VideoCodec.default_crf VideoCodec.H264 = 22 := by
  refine ⟨?_, rfl, rfl, rfl⟩
  intro vc compat
  cases vc <;> cases compat <;> rfl

/-- Claim C4 (counterexample).  A directory with the regular files
`PICT123.AVI` (only three digits) and `PICT0001xAVI` (no literal `.AVI`
suffix — the pattern's dot is unescaped) yields a mapping containing
both, refuting the claimed inclusion condition of at least four digits
and a literal `.AVI` suffix; the directory entry and the non-matching
name are skipped, as claimed. -/
theorem c4_resolver_counterexample :
    find_input_files "src"
        ⟨true, true, true, true, true, true,
         [⟨"PICT123.AVI", true⟩, ⟨"PICT0001xAVI", true⟩, ⟨"notes.txt", true⟩,
          ⟨"PICT0002.AVI", false⟩]⟩ =
      .ok [(123, "src/DCIM/100DSCIM/PICT123.AVI"),
           (1, "src/DCIM/100DSCIM/PICT0001xAVI")] := by
  rfl

/-- Claim C7 (counterexample).  With recordings `{1}` and the range
string `"5:3"`, the resolved selection has start = 5 > end = 3, yet the
run does not fail: control proceeds to the pipeline call site with an
empty selection, refuting the claimed `start ≤ end` invariant. -/
theorem c7_invariant_counterexample :
    main_select ⟨false, ⟨true, true, true, true, true, true, [⟨"PICT0001.AVI", true⟩]⟩,
        "5:3"⟩ "src" = .proceed 5 3 []
    ∧ reachesPipelineCall (main_select ⟨false, ⟨true, true, true, true, true, true,
        [⟨"PICT0001.AVI", true⟩]⟩, "5:3"⟩ "src") = true
    ∧ ¬((5 : Int) ≤ 3) :=
  ⟨rfl, rfl, by decide⟩

/-- Claim C4 (amended).  Under a valid directory structure the resolver
returns the folded dict, and an index is a key of the returned mapping
iff some immediate entry is a regular file whose name fully matches the
pattern (case-insensitive `PICT`, one or more digits, one arbitrary
non-newline character, `AVI`) with that parsed index; directories and
non-matching names are silently skipped. -/
theorem c4_resolver_amended (source_path : String) (fs : DirModel)
    (h1 : fs.source_exists = true) (h2 : fs.source_is_dir = true)
    (h3 : fs.dcim_exists = true) (h4 : fs.dcim_is_dir = true)
    (h5 : fs.input_exists = true) (h6 : fs.input_is_dir = true) (k : Int) :
    find_input_files source_path fs =
      .ok (buildDict (source_path ++ "/DCIM/100DSCIM") fs.listing)
    ∧ (hasKey (buildDict (source_path ++ "/DCIM/100DSCIM") fs.listing) k = true ↔
        ∃ e ∈ fs.listing, e.is_file = true ∧
          ∃ i, matchIndex e.name = some i ∧ k = Int.ofNat i) := by
  constructor
  · simp [find_input_files, h1, h2, h3, h4, h5, h6]
  · exact hasKey_buildDict _ _ _

/-- Witness for C4's amended theorem at a concrete directory. -/
theorem c4_resolver_amended_witness :
    ∃ e ∈ [Entry.mk "PICT0007.AVI" true], e.is_file = true ∧
      ∃ i, matchIndex e.name = some i ∧ (7 : Int) = Int.ofNat i :=
  (c4_resolver_amended "src" ⟨true, true, true, true, true, true,
      [⟨"PICT0007.AVI", true⟩]⟩ rfl rfl rfl rfl rfl rfl 7).2.mp (by rfl)

/-- Claim C5.  After open bounds are substituted with the minimum and
maximum available index, if some index of the inclusive range is absent
from the recording set, `__main__` exits before the pipeline call site
reporting exactly the missing filenames: the reported list is the
`dvr_filename` of every absent index of the range, in strictly
ascending index order, with nothing omitted. -/
theorem c5_missing_files_report (env : MainEnv) (source_path : String)
    (video_files : List (Int × String)) (s e : Option Int)
    (h0 : env.output_exists = false)
    (h1 : find_input_files source_path env.dir = .ok video_files)
    (h2 : video_files.length ≠ 0)
    (h3 : parse_range env.input_range = .ok (s, e))
    (h4 : missingOf video_files (s.getD (minKey video_files))
      (e.getD (maxKey video_files)) ≠ []) :
    main_select env source_path =
      .exited (.missingFiles ((missingOf video_files (s.getD (minKey video_files))
        (e.getD (maxKey video_files))).map dvr_filename))
    ∧ reachesPipelineCall (main_select env source_path) = false
    ∧ List.Chain' (· < ·) (missingOf video_files (s.getD (minKey video_files))
        (e.getD (maxKey video_files)))
    ∧ ∀ i : Int,
        i ∈ missingOf video_files (s.getD (minKey video_files))
            (e.getD (maxKey video_files)) ↔
          (s.getD (minKey video_files) ≤ i ∧ i ≤ e.getD (maxKey video_files)
            ∧ hasKey video_files i = false) := by
  have h5 : 0 < (missingOf video_files (s.getD (minKey video_files))
      (e.getD (maxKey video_files))).length := List.length_pos.mpr h4
  have hmain : main_select env source_path =
      .exited (.missingFiles ((missingOf video_files (s.getD (minKey video_files))
        (e.getD (maxKey video_files))).map dvr_filename)) := by
    simp [main_select, h0, h1, h2, h3, h5]
  refine ⟨hmain, by rw [hmain]; rfl, ?_, ?_⟩
  · exact (List.Pairwise.sublist (List.filter_sublist _)
      (pairwise_lt_intRange _ _)).chain'
  · intro i
    simp [missingOf, List.mem_filter, mem_intRange, Bool.not_eq_true', and_assoc]

/-- Witness for C5: recordings `{1, 2, 4, 5}` with range `"1:5"` report
exactly `PICT0003.AVI`. -/
theorem c5_missing_files_report_witness :
    main_select ⟨false, ⟨true, true, true, true, true, true,
        [⟨"PICT0001.AVI", true⟩, ⟨"PICT0002.AVI", true⟩, ⟨"PICT0004.AVI", true⟩,
         ⟨"PICT0005.AVI", true⟩]⟩, "1:5"⟩ "src" =
      .exited (.missingFiles ["PICT0003.AVI"]) := by
  have h := (c5_missing_files_report
    ⟨false, ⟨true, true, true, true, true, true,
      [⟨"PICT0001.AVI", true⟩, ⟨"PICT0002.AVI", true⟩, ⟨"PICT0004.AVI", true⟩,
       ⟨"PICT0005.AVI", true⟩]⟩, "1:5"⟩ "src"
    [(1, "src/DCIM/100DSCIM/PICT0001.AVI"), (2, "src/DCIM/100DSCIM/PICT0002.AVI"),
     (4, "src/DCIM/100DSCIM/PICT0004.AVI"), (5, "src/DCIM/100DSCIM/PICT0005.AVI")]
    (some 1) (some 5) rfl rfl (by decide) rfl (by decide)).1
  rw [h]
  rfl

/-- Claim C7 (amended).  Whenever `__main__` proceeds to the pipeline
call site with resolved bounds `a, b` and selection `sel`, every index
of the inclusive range `[a, b]` is present in the recording set and
`sel` is the corresponding ordered list of paths; the other half of the
claimed invariant, `a ≤ b`, is not enforced (see the counterexample): a
reversed range proceeds with an empty selection. -/
theorem c7_selection_presence_amended (env : MainEnv) (source_path : String)
    (video_files : List (Int × String)) (a b : Int) (sel : List String)
    (h1 : find_input_files source_path env.dir = .ok video_files)
    (h : main_select env source_path = .proceed a b sel) :
    (intRange a b).all (hasKey video_files) = true
    ∧ sel = (intRange a b).map (dictGet video_files) := by
  unfold main_select at h
  split at h
  next => simp at h
  next =>
    split at h
    next r heq =>
      rw [h1] at heq
      cases heq
    next vf heq =>
      rw [h1] at heq
      injection heq with hvf
      subst hvf
      split at h
      next => simp at h
      next hlen =>
        split at h
        next r heq2 => simp at h
        next s e heq2 =>
          dsimp only at h
          split at h
          next hm => simp at h
          next hm =>
            simp only [MainOutcome.proceed.injEq] at h
            obtain ⟨ha, hb, hsel⟩ := h
            have hmiss : missingOf video_files (s.getD (minKey video_files))
                (e.getD (maxKey video_files)) = [] := by
              by_contra hne
              exact hm (List.length_pos.mpr hne)
            unfold missingOf at hmiss
            rw [← ha, ← hb]
            constructor
            · rw [List.all_eq_true]
              intro i hi
              have hall := List.filter_eq_nil_iff.mp hmiss i hi
              simpa using hall
            · exact hsel.symm

/-- Witness for C7's amended theorem at a concrete proceeding run. -/
theorem c7_selection_presence_amended_witness :
    (intRange 1 1).all
        (hasKey [((1 : Int), "src/DCIM/100DSCIM/PICT0001.AVI")]) = true
    ∧ ["src/DCIM/100DSCIM/PICT0001.AVI"] =
        (intRange 1 1).map (dictGet [((1 : Int), "src/DCIM/100DSCIM/PICT0001.AVI")]) :=
  c7_selection_presence_amended
    ⟨false, ⟨true, true, true, true, true, true, [⟨"PICT0001.AVI", true⟩]⟩, "1:1"⟩
    "src" [((1 : Int), "src/DCIM/100DSCIM/PICT0001.AVI")] 1 1
    ["src/DCIM/100DSCIM/PICT0001.AVI"] rfl rfl

/-- Claim C6.  `parse_range` fails with the format error exactly when
the input does not contain exactly one `:` (first conjunct: any other
colon count gives `invalid range`); with exactly one colon the string
splits into the two colon-free sides, each side is stripped, an empty
stripped side yields `None`, and a non-empty stripped side that `int()`
rejects raises the error naming that side, the start side being checked
first (second conjunct). -/
theorem c6_parse_range_contract :
    (∀ s : String, s.toList.count ':' ≠ 1 → parse_range s = .error .invalidRange)
    ∧ (∀ a b : List Char, ':' ∉ a → ':' ∉ b →
        parse_rangeL (a ++ ':' :: b) =
          if pyStrip a = [] then
            (if pyStrip b = [] then .ok (none, none)
             else match pyParseInt (pyStrip b) with
                  | some n => .ok (none, some n)
                  | none => .error .invalidEnd)
          else match pyParseInt (pyStrip a) with
               | none => .error .invalidStart
               | some m =>
                 if pyStrip b = [] then .ok (some m, none)
                 else match pyParseInt (pyStrip b) with
                      | some n => .ok (some m, some n)
                      | none => .error .invalidEnd) := by
  constructor
  · intro s hs
    unfold parse_range parse_rangeL
    have hlen : (pySplitColon2 s.toList).length = min (s.toList.count ':') 2 + 1 :=
      splitMaxAux_length ':' s.toList 2 []
    have h2 : (pySplitColon2 s.toList).length ≠ 2 := by omega
    cases hsp : pySplitColon2 s.toList with
    | nil => rfl
    | cons x t =>
      cases t with
      | nil => rfl
      | cons y t2 =>
        cases t2 with
        | nil =>
          exfalso
          rw [hsp] at h2
          simp at h2
        | cons z t3 => rfl
  · intro a b ha hb
    unfold parse_rangeL
    rw [pySplitColon2_pair a b ha hb]
    by_cases hpa : pyStrip a = []
    · rw [if_pos hpa]
      by_cases hpb : pyStrip b = []
      · rw [if_pos hpb]
        simp [parseSide, hpa, hpb]
      · rw [if_neg hpb]
        cases hb2 : pyParseInt (pyStrip b) with
        | some n => simp [parseSide, hpa, hpb, hb2]
        | none => simp [parseSide, hpa, hpb, hb2]
    · rw [if_neg hpa]
      cases ha2 : pyParseInt (pyStrip a) with
      | none => simp [parseSide, hpa, ha2]
      | some m =>
        by_cases hpb : pyStrip b = []
        · simp [parseSide, hpa, ha2, hpb]
        · cases hb2 : pyParseInt (pyStrip b) with
          | some n => simp [parseSide, hpa, ha2, hpb, hb2]
          | none => simp [parseSide, hpa, ha2, hpb, hb2]

/-- Witness for C6: `"3:5:7"` fails with the format error, `"a:5"`
fails naming the start side. -/
theorem c6_parse_range_contract_witness :
    parse_range "3:5:7" = .error .invalidRange
    ∧ parse_range "a:5" = .error .invalidStart := by
  constructor
  · exact c6_parse_range_contract.1 "3:5:7" (by decide)
  · have h := c6_parse_range_contract.2 ['a'] ['5'] (by decide) (by decide)
    have he : parse_range "a:5" = parse_rangeL (['a'] ++ ':' :: ['5']) := rfl
    rw [he, h]
    rfl
